import Mathlib

/-!
Verification development for the media-transcribe client.

The definitions below are a shallow embedding of the repository's
TypeScript sources:

* `machineTransition`   — src/lib/state/recorderMachine.ts (xstate machine)
* `MIME_TYPE`, `CHUNK_DURATION` — the constants module
* `HookState`/`hookStep` — the useMediaRecorder hook (recorder loop,
  chunk emission, pause/resume/stop), together with the browser's
  MediaRecorder event queue semantics
* `Res`/`runCleanupFns`  — src/lib/utils/audio.ts (requestAudioStream)
* `CoordState`/`costep`  — src/app/page.tsx (the session coordinator)
-/

namespace Scribe

/-! ## Session state machine (src/lib/state/recorderMachine.ts) -/

/-- The six states of the xstate recorder machine. -/
inductive RState
  | idle | recording | paused | processing | completed | error
deriving DecidableEq, Repr

/-- The events the machine reacts to. -/
inductive REvent
  | START | PAUSE | RESUME | STOP | COMPLETE | ERROR | RESET
deriving DecidableEq, Repr

/-- Transition function of `recorderMachine`: exactly the `on:` maps of
recorderMachine.ts; per xstate semantics an event with no entry for the
current state leaves the state unchanged. -/
def machineTransition : RState → REvent → RState
  | .idle, .START => .recording
  | .recording, .PAUSE => .paused
  | .recording, .STOP => .processing
  | .recording, .ERROR => .error
  | .paused, .RESUME => .recording
  | .paused, .STOP => .processing
  | .paused, .ERROR => .error
  | .processing, .COMPLETE => .completed
  | .processing, .ERROR => .error
  | .completed, .RESET => .idle
  | .error, .RESET => .idle
  | s, _ => s

/-- `initial: "idle"` in recorderMachine.ts. -/
def machineInitial : RState := .idle

/-- Running the machine over a sequence of events. -/
def runMachine : RState → List REvent → RState :=
  List.foldl machineTransition

/-- The transition table of spec section 4.1, written from the spec's
words (partial: `none` for a pair the table does not list).  This is the
refinement counterpart that `machineTransition` is compared against. -/
def specTable : RState → REvent → Option RState
  | .idle, .START => some .recording
  | .recording, .PAUSE => some .paused
  | .recording, .STOP => some .processing
  | .recording, .ERROR => some .error
  | .paused, .RESUME => some .recording
  | .paused, .STOP => some .processing
  | .paused, .ERROR => some .error
  | .processing, .COMPLETE => some .completed
  | .processing, .ERROR => some .error
  | .completed, .RESET => some .idle
  | .error, .RESET => some .idle
  | _, _ => none

/-- One spec step: a listed edge is taken, an unlisted event is a no-op. -/
def specStep (s : RState) (e : REvent) : RState :=
  (specTable s e).getD s

lemma machineTransition_eq_specStep (s : RState) (e : REvent) :
    machineTransition s e = specStep s e := by
  cases s <;> cases e <;> rfl

lemma runMachine_eq_specFold (s : RState) (evs : List REvent) :
    runMachine s evs = List.foldl specStep s evs := by
  induction evs generalizing s with
  | nil => rfl
  | cons e rest ih =>
      simp only [runMachine, List.foldl_cons] at *
      rw [machineTransition_eq_specStep]
      exact ih _

/-- C1: the session state machine implements exactly the transition table
of spec section 4.1, `idle` is the initial state, every event not listed
for a state is a no-op, and running any event sequence equals the table's
composition of transitions. -/
theorem state_machine_implements_table :
    machineInitial = RState.idle
    ∧ (∀ s e, machineTransition s e = specStep s e)
    ∧ (∀ s e, specTable s e = none → machineTransition s e = s)
    ∧ (∀ s evs, runMachine s evs = List.foldl specStep s evs) := by
  refine ⟨rfl, machineTransition_eq_specStep, ?_, runMachine_eq_specFold⟩
  intro s e h
  rw [machineTransition_eq_specStep, specStep, h]
  rfl

/-! ## Constants (src/lib/constants.ts) -/

/-- `MIME_TYPE` from the constants module. -/
def MIME_TYPE : String := "audio/webm;codecs=opus"

/-- `CHUNK_DURATION` from the constants module (6 seconds). -/
def CHUNK_DURATION : Nat := 6000

/-- The handshake timeout literal passed to setTimeout in
useMediaRecorder's startRecording. -/
def HANDSHAKE_TIMEOUT_MS : Nat := 6000

/-! ## Chunk streamer (useMediaRecorder hook plus MediaRecorder semantics)

The hook drives one MediaRecorder in a stop/restart loop: a
CHUNK_DURATION timeout stops the recorder, the browser then delivers a
dataavailable event (carrying the buffered bytes, possibly zero) followed
by a stop event; the stop handler re-starts the recorder after a 10 ms
timeout while `shouldRecordRef` is still set.  Payload bytes are
abstracted to their size; `recQueue` is the recorder's pending event
queue (dataavailable before stop, FIFO, delivered asynchronously). -/

/-- The payload of one `audio:chunk` socket emission. -/
structure Chunk where
  sessionId : String
  chunkIndex : Nat
  payloadSize : Nat
  mimeType : String
  durationMs : Nat
deriving DecidableEq, Repr

/-- Outbound socket messages emitted by the hook. -/
inductive OutMsg
  | sessionInitMsg (title mode : String)
  | audioChunk (c : Chunk)
  | sessionPause (sid : String)
  | sessionResume (sid : String)
  | sessionStop (sid : String)
deriving DecidableEq, Repr

/-- Pending MediaRecorder events (dataavailable carries the flushed
segment's size; stopped is the recorder's stop event). -/
inductive RecEvt
  | data (size : Nat)
  | stopped
deriving DecidableEq, Repr

/-- MediaRecorder.state as used by the hook (pause()/resume() of the
recorder itself are not used by useMediaRecorder). -/
inductive MRState
  | inactive | recording
deriving DecidableEq, Repr

/-- The hook's mutable refs, the recorder, and the socket emission trace
`out` (in emission order). -/
structure HookState where
  hasRecorder : Bool := false
  recState : MRState := .inactive
  buffered : Nat := 0
  recQueue : List RecEvt := []
  pendingRestart : Bool := false
  activeSessionId : Option String := none
  chunkIndex : Nat := 0
  loopTimeout : Bool := false
  shouldRecord : Bool := false
  out : List OutMsg := []
deriving DecidableEq, Repr

/-- Effect of `mediaRecorder.stop()` on a recording recorder: the state
flips to inactive at once and the browser queues a dataavailable event
with the buffered bytes followed by the stop event. -/
def recorderStopNow (s : HookState) : HookState :=
  { s with recState := .inactive, buffered := 0,
           recQueue := s.recQueue ++ [.data s.buffered, .stopped] }

/-- Events that can reach the hook: environment events (audio captured,
the loop timeout firing, the browser delivering the next queued recorder
event, the 10 ms restart timeout firing), the hook's user-facing
operations, and `bind`, the tail of startRecording that runs once the
session-created handshake has resolved. -/
inductive HEvent
  | capture (n : Nat)
  | timerFire
  | recorderEvent
  | restartFire
  | userStop
  | userPause
  | userResume
  | bind (sid : String)
deriving DecidableEq, Repr

/-- `socket.emit` of a session command guarded by the hook's null-check
on `activeSessionId.current`. -/
def emitTo (t : HookState) (f : String → OutMsg) : HookState :=
  match t.activeSessionId with
  | some sid => { t with out := t.out ++ [f sid] }
  | none => t

/-- The body of `recorder.ondataavailable`: a segment of `n` bytes is
emitted as an `audio:chunk` (with the post-incremented counter) only when
it is non-empty and a session id is bound. -/
def emitChunk (t : HookState) (n : Nat) : HookState :=
  match t.activeSessionId with
  | some sid =>
      if n ≠ 0 then
        { t with
          out := t.out ++
            [.audioChunk ⟨sid, t.chunkIndex, n, MIME_TYPE, CHUNK_DURATION⟩],
          chunkIndex := t.chunkIndex + 1 }
      else t
  | none => t

/-- One step of the hook.  Each branch is translated from
useMediaRecorder: the loop timeout handler, ondataavailable, onstop and
its 10 ms restart timeout, stopRecording, pauseRecording, resumeRecording
and the post-handshake block of startRecording. -/
def hookStep (s : HookState) : HEvent → HookState
  | .capture n =>
      if s.recState = .recording then { s with buffered := s.buffered + n } else s
  | .timerFire =>
      if s.loopTimeout then
        let t := { s with loopTimeout := false }
        if t.hasRecorder ∧ t.recState = .recording then recorderStopNow t else t
      else s
  | .recorderEvent =>
      match s.recQueue with
      | [] => s
      | .data n :: rest => emitChunk { s with recQueue := rest } n
      | .stopped :: rest =>
          let t := { s with recQueue := rest }
          if t.shouldRecord ∧ t.hasRecorder then { t with pendingRestart := true } else t
  | .restartFire =>
      if s.pendingRestart then
        let t := { s with pendingRestart := false }
        if t.shouldRecord ∧ t.hasRecorder ∧ t.recState = .inactive then
          { t with recState := .recording, buffered := 0, loopTimeout := true }
        else t
      else s
  | .userStop =>
      let t := { s with loopTimeout := false, shouldRecord := false }
      let t := if t.hasRecorder ∧ t.recState = .recording then recorderStopNow t else t
      emitTo t OutMsg.sessionStop
  | .userPause =>
      let t := { s with shouldRecord := false, loopTimeout := false }
      let t := if t.hasRecorder ∧ t.recState = .recording then recorderStopNow t else t
      emitTo t OutMsg.sessionPause
  | .userResume =>
      if s.hasRecorder ∧ s.activeSessionId.isSome then
        let t := { s with shouldRecord := true }
        let t := if t.recState = .inactive then
            { t with recState := .recording, buffered := 0, loopTimeout := true }
          else t
        emitTo t OutMsg.sessionResume
      else s
  | .bind sid =>
      { s with activeSessionId := some sid, chunkIndex := 0, shouldRecord := true,
               hasRecorder := true, recState := .recording, buffered := 0,
               loopTimeout := true }

/-- Running the hook over an event sequence. -/
def hookRun (s : HookState) (evs : List HEvent) : HookState :=
  List.foldl hookStep s evs

/-- The audio chunks of an emission trace, in emission order. -/
def chunksOf (out : List OutMsg) : List Chunk :=
  out.filterMap fun m => match m with
    | .audioChunk c => some c
    | _ => none

/-- Is a message an audio chunk? -/
def isChunkMsg : OutMsg → Bool
  | .audioChunk _ => true
  | _ => false

/-- Is a message a session-stop command? -/
def isStopMsg : OutMsg → Bool
  | .sessionStop _ => true
  | _ => false

/-- Is a message a session-init request? -/
def isInitMsg : OutMsg → Bool
  | .sessionInitMsg _ _ => true
  | _ => false

/-- Number of audio chunks in a trace. -/
def chunkCount (out : List OutMsg) : Nat := out.countP isChunkMsg

/-- Number of session-init requests in a trace. -/
def initCount (out : List OutMsg) : Nat := out.countP isInitMsg

/-- Number of queued dataavailable events carrying a non-empty payload. -/
def dataCount (q : List RecEvt) : Nat :=
  q.countP fun e => match e with
    | .data n => decide (n ≠ 0)
    | .stopped => false

/-- Does an event list contain a `bind`? (used to scope statements to a
single session). -/
def hasBind (evs : List HEvent) : Bool :=
  evs.any fun e => match e with
    | .bind _ => true
    | _ => false

/-- Is an event able to restart the chunk loop (a resume or a new
session bind)? -/
def isRestartCmd : HEvent → Bool
  | .userResume => true
  | .bind _ => true
  | _ => false

/-- Does an event list contain anything that can restart the loop
(a resume or a new session bind)? -/
def hasRestartCmd (evs : List HEvent) : Bool :=
  evs.any isRestartCmd

/-! ## Per-session invariant of the emission trace -/

/-- State of the hook right after the post-handshake block of
startRecording bound session `sid` (fresh mount: all refs at their
initial values beforehand). -/
def sessionRun (sid : String) (evs : List HEvent) : HookState :=
  hookRun (hookStep {} (.bind sid)) evs

/-- Invariant tying the chunk counter to the emission trace of the bound
session: the counter equals the number of emitted chunks, emitted
sequence numbers are exactly `0, 1, 2, …` in emission order, and every
emitted chunk carries the bound session id, the constant mime type, the
constant duration, and a non-empty payload. -/
def SessionInv (sid : String) (s : HookState) : Prop :=
  s.activeSessionId = some sid
  ∧ s.chunkIndex = (chunksOf s.out).length
  ∧ (chunksOf s.out).map Chunk.chunkIndex = List.range (chunksOf s.out).length
  ∧ ∀ c ∈ chunksOf s.out,
      c.sessionId = sid ∧ c.mimeType = MIME_TYPE ∧ c.durationMs = CHUNK_DURATION
        ∧ c.payloadSize ≠ 0

lemma chunksOf_append (out : List OutMsg) (l : List OutMsg) :
    chunksOf (out ++ l) = chunksOf out ++ chunksOf l := by
  simp [chunksOf]

lemma sessionInv_of_fields (sid : String) (s s' : HookState)
    (h1 : s'.activeSessionId = s.activeSessionId)
    (h2 : s'.chunkIndex = s.chunkIndex)
    (h3 : s'.out = s.out)
    (h : SessionInv sid s) : SessionInv sid s' := by
  unfold SessionInv at *
  rw [h1, h2, h3]
  exact h

lemma sessionInv_append_other (sid : String) (s : HookState) (m : OutMsg)
    (hm : isChunkMsg m = false) (h : SessionInv sid s) :
    SessionInv sid { s with out := s.out ++ [m] } := by
  have hempty : chunksOf [m] = [] := by
    cases m <;> simp_all [chunksOf, isChunkMsg]
  obtain ⟨h1, h2, h3, h4⟩ := h
  refine ⟨h1, ?_, ?_, ?_⟩ <;>
    simp only [chunksOf_append, hempty, List.append_nil] <;> assumption

lemma chunksOf_single_chunk (c : Chunk) : chunksOf [.audioChunk c] = [c] := rfl

lemma sessionInv_emit (sid : String) (s : HookState) (n : Nat) (hn : n ≠ 0)
    (h : SessionInv sid s) :
    SessionInv sid
      { s with
        out := s.out ++ [.audioChunk ⟨sid, s.chunkIndex, n, MIME_TYPE, CHUNK_DURATION⟩],
        chunkIndex := s.chunkIndex + 1 } := by
  obtain ⟨h1, h2, h3, h4⟩ := h
  refine ⟨h1, ?_, ?_, ?_⟩
  · simp [chunksOf_append, chunksOf_single_chunk, h2]
  · simp only [chunksOf_append, chunksOf_single_chunk, List.map_append,
      List.length_append, List.map_cons, List.map_nil, List.length_cons,
      List.length_nil]
    rw [List.range_succ, h3, h2]
  · intro c hc
    simp only [chunksOf_append, chunksOf_single_chunk, List.mem_append,
      List.mem_singleton] at hc
    rcases hc with hc | hc
    · exact h4 c hc
    · subst hc
      exact ⟨rfl, rfl, rfl, hn⟩

lemma sessionInv_emitTo (sid : String) (t : HookState) (f : String → OutMsg)
    (hf : ∀ u, isChunkMsg (f u) = false) (h : SessionInv sid t) :
    SessionInv sid (emitTo t f) := by
  unfold emitTo
  rw [h.1]
  dsimp only
  have ht : SessionInv sid { t with activeSessionId := some sid } :=
    sessionInv_of_fields sid t _ h.1.symm rfl rfl h
  exact sessionInv_append_other sid _ (f sid) (hf sid) ht

lemma sessionInv_emitChunk (sid : String) (t : HookState) (n : Nat)
    (h : SessionInv sid t) : SessionInv sid (emitChunk t n) := by
  unfold emitChunk
  rw [h.1]
  dsimp only
  have ht : SessionInv sid { t with activeSessionId := some sid } :=
    sessionInv_of_fields sid t _ h.1.symm rfl rfl h
  by_cases hn : n = 0
  · rw [if_neg (not_not_intro hn)]
    exact h
  · rw [if_pos hn]
    exact sessionInv_emit sid { t with activeSessionId := some sid } n hn ht

lemma sessionInv_step (sid : String) (s : HookState) (e : HEvent)
    (hb : ∀ t, e ≠ HEvent.bind t) (h : SessionInv sid s) :
    SessionInv sid (hookStep s e) := by
  cases e with
  | capture n =>
      simp only [hookStep]
      split
      · exact sessionInv_of_fields sid s _ rfl rfl rfl h
      · exact h
  | timerFire =>
      simp only [hookStep]
      split
      · split
        · exact sessionInv_of_fields sid s _ rfl rfl rfl h
        · exact sessionInv_of_fields sid s _ rfl rfl rfl h
      · exact h
  | recorderEvent =>
      simp only [hookStep]
      split
      · exact h
      · exact sessionInv_emitChunk sid _ _
          (sessionInv_of_fields sid s _ rfl rfl rfl h)
      · split
        · exact sessionInv_of_fields sid s _ rfl rfl rfl h
        · exact sessionInv_of_fields sid s _ rfl rfl rfl h
  | restartFire =>
      simp only [hookStep]
      split
      · split
        · exact sessionInv_of_fields sid s _ rfl rfl rfl h
        · exact sessionInv_of_fields sid s _ rfl rfl rfl h
      · exact h
  | userStop =>
      simp only [hookStep]
      refine sessionInv_emitTo sid _ _ (fun u => rfl) ?_
      split
      · exact sessionInv_of_fields sid s _ rfl rfl rfl h
      · exact sessionInv_of_fields sid s _ rfl rfl rfl h
  | userPause =>
      simp only [hookStep]
      refine sessionInv_emitTo sid _ _ (fun u => rfl) ?_
      split
      · exact sessionInv_of_fields sid s _ rfl rfl rfl h
      · exact sessionInv_of_fields sid s _ rfl rfl rfl h
  | userResume =>
      simp only [hookStep]
      split
      · refine sessionInv_emitTo sid _ _ (fun u => rfl) ?_
        split
        · exact sessionInv_of_fields sid s _ rfl rfl rfl h
        · exact sessionInv_of_fields sid s _ rfl rfl rfl h
      · exact h
  | bind t => exact absurd rfl (hb t)

lemma sessionInv_run (sid : String) (s : HookState) (evs : List HEvent)
    (h : SessionInv sid s) (hb : hasBind evs = false) :
    SessionInv sid (hookRun s evs) := by
  induction evs generalizing s with
  | nil => exact h
  | cons e rest ih =>
      simp only [hasBind, List.any_cons, Bool.or_eq_false_iff] at hb
      have hnb : ∀ t, e ≠ HEvent.bind t := by
        intro t ht
        subst ht
        simp at hb
      have hb' : hasBind rest = false := hb.2
      exact ih (hookStep s e) (sessionInv_step sid s e hnb h) hb'

lemma sessionInv_start (sid : String) :
    SessionInv sid (hookStep {} (.bind sid)) := by
  refine ⟨rfl, rfl, rfl, ?_⟩
  intro c hc
  simp [hookStep, chunksOf] at hc

lemma sessionInv_sessionRun (sid : String) (evs : List HEvent)
    (hb : hasBind evs = false) : SessionInv sid (sessionRun sid evs) :=
  sessionInv_run sid _ evs (sessionInv_start sid) hb

/-- C2: within one session the sequence numbers attached to emitted
chunks are exactly `0, 1, 2, …` in emission order (no gaps, no repeats,
across any pause/resume cycles), and a zero-byte segment is never emitted
and consumes no sequence number (every emitted chunk has a non-empty
payload, and numbers are assigned only at emission). -/
theorem chunk_sequence_numbers_exact (sid : String) (evs : List HEvent)
    (hb : hasBind evs = false) :
    (chunksOf (sessionRun sid evs).out).map Chunk.chunkIndex
      = List.range (chunksOf (sessionRun sid evs).out).length
    ∧ ∀ c ∈ chunksOf (sessionRun sid evs).out, c.payloadSize ≠ 0 := by
  obtain ⟨_, _, h3, h4⟩ := sessionInv_sessionRun sid evs hb
  exact ⟨h3, fun c hc => (h4 c hc).2.2.2⟩

/-- Event list exercising two full windows (one of them empty), a pause
flush, a resume, and a stop flush. -/
def evsC2 : List HEvent :=
  [.capture 3, .timerFire, .recorderEvent, .recorderEvent, .restartFire,
   .timerFire, .recorderEvent, .recorderEvent, .restartFire,
   .capture 1, .userPause, .recorderEvent, .userResume,
   .capture 9, .userStop, .recorderEvent, .recorderEvent]

theorem chunk_sequence_numbers_exact_witness :
    hasBind evsC2 = false
    ∧ ((chunksOf (sessionRun "w" evsC2).out).map Chunk.chunkIndex
        = List.range (chunksOf (sessionRun "w" evsC2).out).length
      ∧ ∀ c ∈ chunksOf (sessionRun "w" evsC2).out, c.payloadSize ≠ 0) :=
  ⟨by decide, chunk_sequence_numbers_exact "w" evsC2 (by decide)⟩

/-- C10: every emitted `audio:chunk` carries the session id bound at
creation, the constant mime type `audio/webm;codecs=opus`, and
`durationMs = 6000` — including partial segments flushed by pause or
stop, whose reported duration is still the constant. -/
theorem chunk_metadata_constant (sid : String) (evs : List HEvent)
    (hb : hasBind evs = false) :
    ∀ c ∈ chunksOf (sessionRun sid evs).out,
      c.sessionId = sid ∧ c.mimeType = MIME_TYPE ∧ c.durationMs = CHUNK_DURATION := by
  intro c hc
  obtain ⟨_, _, _, h4⟩ := sessionInv_sessionRun sid evs hb
  exact ⟨(h4 c hc).1, (h4 c hc).2.1, (h4 c hc).2.2.1⟩

/-- Event list with a pause flush and a stop flush (partial segments). -/
def evsC10 : List HEvent :=
  [.capture 4, .userPause, .recorderEvent, .userResume, .capture 2,
   .userStop, .recorderEvent, .recorderEvent]

theorem chunk_metadata_constant_witness :
    hasBind evsC10 = false
    ∧ ∀ c ∈ chunksOf (sessionRun "m" evsC10).out,
        c.sessionId = "m" ∧ c.mimeType = MIME_TYPE ∧ c.durationMs = CHUNK_DURATION :=
  ⟨by decide, chunk_metadata_constant "m" evsC10 (by decide)⟩

/-! ## Behaviour of the trace after stopRecording

stopRecording clears the loop timeout, clears `shouldRecordRef`, calls
`mediaRecorder.stop()` and then emits `session:stop` synchronously; the
flushed final segment however arrives through the recorder's
asynchronous dataavailable event, i.e. after stopRecording has
returned. -/

/-- Does a trace contain an audio chunk emitted strictly after a
`session:stop` command? -/
def chunkAfterStopCmd (out : List OutMsg) : Bool :=
  ((out.dropWhile fun m => !isStopMsg m).drop 1).any isChunkMsg

/-- Quiescence after a stop: the loop flag and timer are off and the
recorder is inactive (or was never created). -/
def Quiesced (s : HookState) : Prop :=
  s.shouldRecord = false ∧ s.loopTimeout = false
    ∧ (s.hasRecorder = false ∨ s.recState = .inactive)

/-- Emitted chunks plus still-queued non-empty flushes: the quantity that
never grows once the hook is quiescent. -/
def mu (s : HookState) : Nat := chunkCount s.out + dataCount s.recQueue

lemma chunkCount_append_other (out : List OutMsg) (m : OutMsg)
    (hm : isChunkMsg m = false) : chunkCount (out ++ [m]) = chunkCount out := by
  simp [chunkCount, List.countP_append, List.countP_cons, hm]

lemma chunkCount_append_chunk (out : List OutMsg) (c : Chunk) :
    chunkCount (out ++ [.audioChunk c]) = chunkCount out + 1 := by
  simp [chunkCount, List.countP_append, List.countP_cons, isChunkMsg]

lemma chunkCount_le_mu (s : HookState) : chunkCount s.out ≤ mu s :=
  Nat.le_add_right _ _

lemma quiesced_of_fields (s s' : HookState)
    (h1 : s'.shouldRecord = s.shouldRecord)
    (h2 : s'.loopTimeout = s.loopTimeout)
    (h3 : s'.hasRecorder = s.hasRecorder)
    (h4 : s'.recState = s.recState)
    (hq : Quiesced s) : Quiesced s' := by
  unfold Quiesced at *
  rw [h1, h2, h3, h4]
  exact hq

lemma emitTo_fields (t : HookState) (f : String → OutMsg) :
    (emitTo t f).shouldRecord = t.shouldRecord
    ∧ (emitTo t f).loopTimeout = t.loopTimeout
    ∧ (emitTo t f).hasRecorder = t.hasRecorder
    ∧ (emitTo t f).recState = t.recState
    ∧ (emitTo t f).recQueue = t.recQueue := by
  unfold emitTo
  cases t.activeSessionId
  · exact ⟨rfl, rfl, rfl, rfl, rfl⟩
  · exact ⟨rfl, rfl, rfl, rfl, rfl⟩

lemma chunkCount_emitTo (t : HookState) (f : String → OutMsg)
    (hf : ∀ u, isChunkMsg (f u) = false) :
    chunkCount (emitTo t f).out = chunkCount t.out := by
  unfold emitTo
  cases t.activeSessionId with
  | none => rfl
  | some sid => exact chunkCount_append_other t.out (f sid) (hf sid)

lemma mu_emitTo (t : HookState) (f : String → OutMsg)
    (hf : ∀ u, isChunkMsg (f u) = false) :
    mu (emitTo t f) = mu t := by
  unfold mu
  rw [chunkCount_emitTo t f hf, (emitTo_fields t f).2.2.2.2]

lemma quiesced_emitTo (t : HookState) (f : String → OutMsg)
    (hq : Quiesced t) : Quiesced (emitTo t f) := by
  obtain ⟨e1, e2, e3, e4, _⟩ := emitTo_fields t f
  exact quiesced_of_fields t _ e1 e2 e3 e4 hq

lemma emitChunk_fields (t : HookState) (n : Nat) :
    (emitChunk t n).shouldRecord = t.shouldRecord
    ∧ (emitChunk t n).loopTimeout = t.loopTimeout
    ∧ (emitChunk t n).hasRecorder = t.hasRecorder
    ∧ (emitChunk t n).recState = t.recState
    ∧ (emitChunk t n).recQueue = t.recQueue := by
  unfold emitChunk
  cases t.activeSessionId
  · exact ⟨rfl, rfl, rfl, rfl, rfl⟩
  · dsimp only
    by_cases hn : n = 0
    · rw [if_neg (not_not_intro hn)]
      exact ⟨rfl, rfl, rfl, rfl, rfl⟩
    · rw [if_pos hn]
      exact ⟨rfl, rfl, rfl, rfl, rfl⟩

lemma chunkCount_emitChunk (t : HookState) (n : Nat) :
    chunkCount (emitChunk t n).out
      ≤ chunkCount t.out + (if n ≠ 0 then 1 else 0) := by
  unfold emitChunk
  cases t.activeSessionId with
  | none => exact Nat.le_add_right _ _
  | some sid =>
      dsimp only
      by_cases hn : n = 0
      · rw [if_neg (not_not_intro hn)]
        exact Nat.le_add_right _ _
      · rw [if_pos hn, if_pos hn]
        exact Nat.le_of_eq (chunkCount_append_chunk t.out _)

lemma dataCount_cons_data (n : Nat) (rest : List RecEvt) :
    dataCount (.data n :: rest) = (if n ≠ 0 then 1 else 0) + dataCount rest := by
  by_cases hn : n = 0
  · subst hn
    simp [dataCount, List.countP_cons]
  · simp only [dataCount, List.countP_cons]
    simp [hn]
    omega

lemma dataCount_cons_stopped (rest : List RecEvt) :
    dataCount (.stopped :: rest) = dataCount rest := by
  simp [dataCount, List.countP_cons]

lemma dataCount_stopAppend (q : List RecEvt) (b : Nat) :
    dataCount (q ++ [.data b, .stopped])
      = dataCount q + (if b ≠ 0 then 1 else 0) := by
  by_cases hb : b = 0 <;>
    simp [dataCount, List.countP_append, List.countP_cons, hb]

lemma quiesced_step (s : HookState) (e : HEvent)
    (he : isRestartCmd e = false) (hq : Quiesced s) :
    Quiesced (hookStep s e) ∧ mu (hookStep s e) ≤ mu s := by
  obtain ⟨q1, q2, q3⟩ := hq
  cases e with
  | capture n =>
      simp only [hookStep]
      split
      · exact ⟨⟨q1, q2, q3⟩, le_refl _⟩
      · exact ⟨⟨q1, q2, q3⟩, le_refl _⟩
  | timerFire =>
      simp only [hookStep]
      rw [if_neg (by simp [q2])]
      exact ⟨⟨q1, q2, q3⟩, le_refl _⟩
  | recorderEvent =>
      simp only [hookStep]
      split
      · exact ⟨⟨q1, q2, q3⟩, le_refl _⟩
      · rename_i n rest heq
        constructor
        · obtain ⟨e1, e2, e3, e4, _⟩ :=
            emitChunk_fields { s with recQueue := rest } n
          exact quiesced_of_fields s _ e1 e2 e3 e4 ⟨q1, q2, q3⟩
        · have hcc := chunkCount_emitChunk { s with recQueue := rest } n
          have hqq := (emitChunk_fields { s with recQueue := rest } n).2.2.2.2
          simp only [mu, hqq, heq, dataCount_cons_data]
          have : dataCount ({ s with recQueue := rest } : HookState).recQueue
              = dataCount rest := rfl
          rw [this]
          have hout : chunkCount ({ s with recQueue := rest } : HookState).out
              = chunkCount s.out := rfl
          rw [hout] at hcc
          omega
      · rename_i rest heq
        rw [if_neg (by simp [q1])]
        refine ⟨⟨q1, q2, q3⟩, ?_⟩
        simp only [mu, heq, dataCount_cons_stopped]
        exact le_refl _
  | restartFire =>
      simp only [hookStep]
      split
      · rw [if_neg (by simp [q1])]
        exact ⟨⟨q1, q2, q3⟩, le_refl _⟩
      · exact ⟨⟨q1, q2, q3⟩, le_refl _⟩
  | userStop =>
      simp only [hookStep]
      rw [if_neg (show ¬ (({ s with loopTimeout := false, shouldRecord := false }
          : HookState).hasRecorder = true
          ∧ ({ s with loopTimeout := false, shouldRecord := false }
              : HookState).recState = .recording) by
        rcases q3 with q3 | q3 <;> simp [q3])]
      refine ⟨quiesced_emitTo _ OutMsg.sessionStop ⟨rfl, rfl, q3⟩, ?_⟩
      rw [mu_emitTo _ OutMsg.sessionStop (fun u => rfl)]
      exact le_refl _
  | userPause =>
      simp only [hookStep]
      rw [if_neg (show ¬ (({ s with shouldRecord := false, loopTimeout := false }
          : HookState).hasRecorder = true
          ∧ ({ s with shouldRecord := false, loopTimeout := false }
              : HookState).recState = .recording) by
        rcases q3 with q3 | q3 <;> simp [q3])]
      refine ⟨quiesced_emitTo _ OutMsg.sessionPause ⟨rfl, rfl, q3⟩, ?_⟩
      rw [mu_emitTo _ OutMsg.sessionPause (fun u => rfl)]
      exact le_refl _
  | userResume => simp [isRestartCmd] at he
  | bind sid => simp [isRestartCmd] at he

lemma quiesced_run (s : HookState) (evs : List HEvent)
    (hr : hasRestartCmd evs = false) (hq : Quiesced s) :
    Quiesced (hookRun s evs) ∧ mu (hookRun s evs) ≤ mu s := by
  induction evs generalizing s with
  | nil => exact ⟨hq, le_refl _⟩
  | cons e rest ih =>
      simp only [hasRestartCmd, List.any_cons, Bool.or_eq_false_iff] at hr
      have hstep := quiesced_step s e hr.1 hq
      have hrest : hasRestartCmd rest = false := hr.2
      have hih := ih (hookStep s e) hrest hstep.1
      exact ⟨hih.1, le_trans hih.2 hstep.2⟩

lemma userStop_quiesced (s : HookState) :
    Quiesced (hookStep s .userStop) ∧ mu (hookStep s .userStop) ≤ mu s + 1 := by
  simp only [hookStep]
  split
  · rename_i hcond
    refine ⟨quiesced_emitTo _ OutMsg.sessionStop ⟨rfl, rfl, Or.inr rfl⟩, ?_⟩
    rw [mu_emitTo _ OutMsg.sessionStop (fun u => rfl)]
    show chunkCount s.out + dataCount (s.recQueue ++ [.data s.buffered, .stopped])
        ≤ chunkCount s.out + dataCount s.recQueue + 1
    rw [dataCount_stopAppend]
    by_cases hb : s.buffered = 0
    · rw [if_neg (not_not_intro hb)]
      omega
    · rw [if_pos hb]
      omega
  · rename_i hcond
    have h3 : s.hasRecorder = false ∨ s.recState = .inactive := by
      by_cases hrec : s.hasRecorder = true
      · right
        cases hms : s.recState
        · rfl
        · exact absurd ⟨hrec, hms⟩ hcond
      · left
        exact Bool.not_eq_true _ |>.mp hrec
    refine ⟨quiesced_emitTo _ OutMsg.sessionStop ⟨rfl, rfl, h3⟩, ?_⟩
    rw [mu_emitTo _ OutMsg.sessionStop (fun u => rfl)]
    exact Nat.le_succ _

/-- C3 counterexample: in a session that buffered 5 bytes and is then
stopped, the `session:stop` command is emitted during stopRecording while
the final flushed chunk is emitted afterwards, when the recorder's
asynchronous dataavailable event is delivered — so a chunk IS emitted
after stop() completes and after the session-stop command was sent. -/
theorem chunk_after_stop_cex :
    chunkAfterStopCmd
      (sessionRun "s1" [.capture 5, .userStop, .recorderEvent]).out = true := by
  decide

/-- C3 amended: the stop sequence flushes rather than loses the in-flight
segment, but delivers it asynchronously after stopRecording returns: once
stopRecording has run, the chunks that can still be emitted are exactly
the flushes already queued at stop time plus at most the one final flush,
and — absent a resume or a new session bind — no further chunk is ever
emitted beyond that bound. -/
theorem chunks_after_stop_bounded (s : HookState) (evs : List HEvent)
    (hr : hasRestartCmd evs = false) :
    chunkCount (hookRun (hookStep s .userStop) evs).out
      ≤ chunkCount s.out + dataCount s.recQueue + 1 := by
  have hstop := userStop_quiesced s
  have hrun := quiesced_run (hookStep s .userStop) evs hr hstop.1
  calc chunkCount (hookRun (hookStep s .userStop) evs).out
      ≤ mu (hookRun (hookStep s .userStop) evs) := chunkCount_le_mu _
    _ ≤ mu (hookStep s .userStop) := hrun.2
    _ ≤ mu s + 1 := hstop.2
    _ = chunkCount s.out + dataCount s.recQueue + 1 := rfl

theorem chunks_after_stop_bounded_witness :
    hasRestartCmd [HEvent.recorderEvent, HEvent.recorderEvent] = false
    ∧ chunkCount (hookRun
        (hookStep (sessionRun "f" [.capture 2]) .userStop)
        [HEvent.recorderEvent, HEvent.recorderEvent]).out
      ≤ chunkCount (sessionRun "f" [.capture 2]).out
        + dataCount (sessionRun "f" [.capture 2]).recQueue + 1 :=
  ⟨by decide, chunks_after_stop_bounded (sessionRun "f" [.capture 2])
    [HEvent.recorderEvent, HEvent.recorderEvent] (by decide)⟩

/-! ## Audio capture resources (src/lib/utils/audio.ts)

requestAudioStream awaits getDisplayMedia, then getUserMedia, builds the
cleanup list `[stop mic tracks, stop tab tracks]`, stops the tab's video
tracks eagerly, and — when the tab has audio tracks — opens an
AudioContext mixing graph and pushes its close onto the cleanup list.
Resources are modelled by their live/held state. -/

/-- Liveness of the capture resources. -/
structure Res where
  tabLive : Bool := false
  micLive : Bool := false
  tabVideoLive : Bool := false
  ctxOpen : Bool := false
deriving DecidableEq, Repr

/-- Effect of invoking the cleanup closure returned by
requestAudioStream: stop all mic tracks, stop all tab tracks, and (when
the mixing path was taken) close the AudioContext.  Stopping a stopped
track and closing a closed context change nothing further. -/
def runCleanupFns (mixed : Bool) (r : Res) : Res :=
  { r with micLive := false, tabLive := false,
           ctxOpen := if mixed then false else r.ctxOpen }

/-- The resource state right after requestAudioStream succeeds with
`tabAudioTracks` audio tracks on the tab stream: both sources live, tab
video tracks already stopped, mixing graph open iff the tab had audio. -/
def acquiredRes (tabAudioTracks : Nat) : Res :=
  { tabLive := true, micLive := true, tabVideoLive := false,
    ctxOpen := decide (0 < tabAudioTracks) }

/-- All capture resources are released. -/
def allSourcesReleased (r : Res) : Prop :=
  r.tabLive = false ∧ r.micLive = false ∧ r.tabVideoLive = false
    ∧ r.ctxOpen = false

instance (r : Res) : Decidable (allSourcesReleased r) := by
  unfold allSourcesReleased
  infer_instance

/-! ## Session lifecycle coordinator (src/app/page.tsx with the hook)

The coordinator state combines the xstate machine, the page's React
state, the hook state, the capture resources, and the progress of the
async startRecording call (`phase`): `acquiring` while awaiting
requestAudioStream, `handshaking` while awaiting session-created. -/

/-- Progress of a pending startRecording call. -/
inductive Phase
  | idlePhase | acquiring | handshaking
deriving DecidableEq, Repr

/-- Combined coordinator state. -/
structure CoordState where
  machine : RState := .idle
  transcript : List String := []
  summary : Option String := none
  pageSessionId : Option String := none
  banner : Option String := none
  serverStatus : String := "IDLE"
  socketOk : Bool := true
  title : String := "t"
  phase : Phase := .idlePhase
  hook : HookState := {}
  res : Res := {}
  cleanupHandle : Option Bool := none
deriving DecidableEq, Repr

/-- resetState from page.tsx: clears transcript, summary, the session
correlation id, the server status, the banner, and sends RESET. -/
def resetState (s : CoordState) : CoordState :=
  { s with transcript := [], summary := none, pageSessionId := none,
           serverStatus := "IDLE",
           machine := machineTransition s.machine .RESET,
           banner := none }

/-- cleanupMedia from useMediaRecorder: stops the loop, clears the
should-record flag, invokes the stored stream cleanup (if any), stops the
recorder when it is not inactive, and drops the recorder.  The stream
cleanup's effect on the resources is `runCleanupFns`; the recorder-stream
track stops that follow re-stop already-stopped tracks. -/
def cleanupMediaC (s : CoordState) : CoordState :=
  let h1 := { s.hook with loopTimeout := false, shouldRecord := false }
  let r1 := match s.cleanupHandle with
    | some mixed => runCleanupFns mixed s.res
    | none => s.res
  let h2 := if h1.hasRecorder then
      { (if h1.recState ≠ .inactive then recorderStopNow h1 else h1) with
        hasRecorder := false }
    else h1
  { s with hook := h2, res := r1, cleanupHandle := none }

/-- The failure path of a startRecording call: useMediaRecorder's catch
runs cleanupMedia and rethrows; page.tsx's catch sets the banner, runs
cleanupMedia again and sends ERROR. -/
def startFailurePath (s : CoordState) (msg : String) : CoordState :=
  let s1 := cleanupMediaC s
  let s2 := cleanupMediaC { s1 with banner := some msg }
  { s2 with machine := machineTransition s2.machine .ERROR,
            phase := .idlePhase }

/-- Environment events the recorder/browser can deliver to the hook
spontaneously (as opposed to the coordinator's own calls). -/
def isEnvEvent : HEvent → Bool
  | .capture _ => true
  | .timerFire => true
  | .recorderEvent => true
  | .restartFire => true
  | _ => false

/-- Events driving the coordinator: the four UI callbacks, resolution of
the two awaited acquisition promises, resolution of the session-creation
handshake (created / error / 6000 ms timeout), environment events for the
hook, and an unsolicited capture-source termination (e.g. the user
revokes tab sharing). -/
inductive CEvent
  | clickStart
  | clickPause
  | clickResume
  | clickStop
  | acqTabDenied
  | acqMicDenied
  | acqGranted (tabAudioTracks : Nat)
  | hsCreated (sid : String)
  | hsError (reason : String)
  | hsTimeout
  | media (e : HEvent)
  | sourceTerminated
deriving DecidableEq, Repr

/-- One step of the coordinator, translated from page.tsx together with
useMediaRecorder and requestAudioStream.  Note `sourceTerminated` is a
no-op: requestAudioStream in audio.ts declares no callback parameter and
registers no track-ended handler, so nothing in the code observes an
unsolicited source termination (useMediaRecorder passes a callback at
the call site, but the callee ignores it). -/
def costep (s : CoordState) : CEvent → CoordState
  | .clickStart =>
      if s.machine = .recording ∨ s.machine = .paused then s
      else if s.socketOk = false then
        { s with banner := some "Socket connection unavailable. Please refresh." }
      else
        let s1 := if s.machine = .error ∨ s.machine = .completed
          then resetState s else s
        { s1 with banner := none, transcript := [], summary := none,
                  machine := machineTransition s1.machine .START,
                  serverStatus := "RECORDING", phase := .acquiring }
  | .clickPause =>
      { s with hook := hookStep s.hook .userPause,
               machine := machineTransition s.machine .PAUSE,
               serverStatus := "PAUSED" }
  | .clickResume =>
      { s with hook := hookStep s.hook .userResume,
               machine := machineTransition s.machine .RESUME,
               serverStatus := "RECORDING" }
  | .clickStop =>
      { s with hook := hookStep s.hook .userStop,
               machine := machineTransition s.machine .STOP,
               serverStatus := "PROCESSING" }
  | .acqTabDenied =>
      if s.phase = .acquiring then startFailurePath s "Permission denied"
      else s
  | .acqMicDenied =>
      if s.phase = .acquiring then
        startFailurePath
          { s with res := { s.res with tabLive := true, tabVideoLive := true } }
          "Permission denied"
      else s
  | .acqGranted tabAudioTracks =>
      if s.phase = .acquiring then
        { s with res := acquiredRes tabAudioTracks,
                 cleanupHandle := some (decide (0 < tabAudioTracks)),
                 hook := { s.hook with
                   out := s.hook.out ++ [.sessionInitMsg s.title "tab"] },
                 phase := .handshaking }
      else s
  | .hsCreated sid =>
      if s.phase = .handshaking then
        { s with pageSessionId := some sid,
                 hook := hookStep s.hook (.bind sid),
                 phase := .idlePhase }
      else s
  | .hsError reason =>
      if s.phase = .handshaking then startFailurePath s reason else s
  | .hsTimeout =>
      if s.phase = .handshaking then
        startFailurePath s "Timed out creating session"
      else s
  | .media e =>
      if isEnvEvent e then { s with hook := hookStep s.hook e } else s
  | .sourceTerminated => s

/-- Running the coordinator over an event sequence. -/
def corun (s : CoordState) (evs : List CEvent) : CoordState :=
  List.foldl costep s evs

/-- The initial coordinator state (fresh mount, socket connected). -/
def coordInit0 : CoordState := {}

/-- Is an event the Start button callback? -/
def isClickStart : CEvent → Bool
  | .clickStart => true
  | _ => false

/-- Does an event list contain a Start click? -/
def hasClickStart (evs : List CEvent) : Bool := evs.any isClickStart

/-! ## Helper lemmas about the coordinator -/

lemma initCount_append_other (out : List OutMsg) (m : OutMsg)
    (hm : isInitMsg m = false) : initCount (out ++ [m]) = initCount out := by
  simp [initCount, List.countP_append, List.countP_cons, hm]

lemma emitTo_nosid (t : HookState) (f : String → OutMsg)
    (hs : t.activeSessionId = none) : emitTo t f = t := by
  unfold emitTo
  rw [hs]

lemma emitChunk_nosid (t : HookState) (n : Nat)
    (hs : t.activeSessionId = none) : emitChunk t n = t := by
  unfold emitChunk
  rw [hs]

lemma initCount_emitTo (t : HookState) (f : String → OutMsg)
    (hf : ∀ u, isInitMsg (f u) = false) :
    initCount (emitTo t f).out = initCount t.out := by
  unfold emitTo
  cases t.activeSessionId with
  | none => rfl
  | some sid => exact initCount_append_other t.out (f sid) (hf sid)

lemma initCount_emitChunk (t : HookState) (n : Nat) :
    initCount (emitChunk t n).out = initCount t.out := by
  unfold emitChunk
  cases t.activeSessionId with
  | none => rfl
  | some sid =>
      dsimp only
      by_cases hn : n = 0
      · rw [if_neg (not_not_intro hn)]
      · rw [if_pos hn]
        exact initCount_append_other t.out _ rfl

lemma initCount_hookStep (h : HookState) (e : HEvent) :
    initCount (hookStep h e).out = initCount h.out := by
  cases e with
  | capture n =>
      simp only [hookStep]
      split <;> rfl
  | timerFire =>
      simp only [hookStep]
      split
      · split <;> rfl
      · rfl
  | recorderEvent =>
      simp only [hookStep]
      split
      · rfl
      · exact initCount_emitChunk _ _
      · split <;> rfl
  | restartFire =>
      simp only [hookStep]
      split
      · split <;> rfl
      · rfl
  | userStop =>
      simp only [hookStep]
      rw [initCount_emitTo _ OutMsg.sessionStop (fun u => rfl)]
      split <;> rfl
  | userPause =>
      simp only [hookStep]
      rw [initCount_emitTo _ OutMsg.sessionPause (fun u => rfl)]
      split <;> rfl
  | userResume =>
      simp only [hookStep]
      split
      · rw [initCount_emitTo _ OutMsg.sessionResume (fun u => rfl)]
        split <;> rfl
      · rfl
  | bind sid => rfl

lemma cleanupMediaC_hook_out (s : CoordState) :
    (cleanupMediaC s).hook.out = s.hook.out := by
  unfold cleanupMediaC
  dsimp only
  split
  · split <;> rfl
  · rfl

lemma cleanupMediaC_same (s : CoordState) :
    (cleanupMediaC s).machine = s.machine
    ∧ (cleanupMediaC s).banner = s.banner
    ∧ (cleanupMediaC s).phase = s.phase
    ∧ (cleanupMediaC s).cleanupHandle = none
    ∧ (cleanupMediaC s).hook.activeSessionId = s.hook.activeSessionId := by
  refine ⟨rfl, rfl, rfl, rfl, ?_⟩
  unfold cleanupMediaC
  dsimp only
  split
  · split <;> rfl
  · rfl

lemma cleanupMediaC_res_some (s : CoordState) (m : Bool)
    (hch : s.cleanupHandle = some m) :
    (cleanupMediaC s).res = runCleanupFns m s.res := by
  unfold cleanupMediaC
  dsimp only
  rw [hch]

lemma cleanupMediaC_res_none (s : CoordState)
    (hch : s.cleanupHandle = none) :
    (cleanupMediaC s).res = s.res := by
  unfold cleanupMediaC
  dsimp only
  rw [hch]

lemma startFailurePath_fields (s : CoordState) (msg : String) :
    (startFailurePath s msg).machine = machineTransition s.machine .ERROR
    ∧ (startFailurePath s msg).banner = some msg
    ∧ (startFailurePath s msg).phase = .idlePhase
    ∧ (startFailurePath s msg).hook.out = s.hook.out
    ∧ (startFailurePath s msg).hook.activeSessionId = s.hook.activeSessionId := by
  unfold startFailurePath
  dsimp only
  obtain ⟨m1, _, _, _, a1⟩ := cleanupMediaC_same s
  obtain ⟨m2, b2, _, _, a2⟩ :=
    cleanupMediaC_same { cleanupMediaC s with banner := some msg }
  refine ⟨?_, ?_, rfl, ?_, ?_⟩
  · rw [m2]
    show machineTransition (cleanupMediaC s).machine .ERROR
      = machineTransition s.machine .ERROR
    rw [m1]
  · rw [b2]
  · rw [cleanupMediaC_hook_out]
    show (cleanupMediaC s).hook.out = s.hook.out
    exact cleanupMediaC_hook_out s
  · rw [a2]
    show (cleanupMediaC s).hook.activeSessionId = s.hook.activeSessionId
    exact a1

lemma startFailurePath_res (s : CoordState) (msg : String) (m : Bool)
    (hch : s.cleanupHandle = some m) :
    (startFailurePath s msg).res = runCleanupFns m s.res := by
  unfold startFailurePath
  dsimp only
  have h2 : ({ cleanupMediaC s with banner := some msg }
      : CoordState).cleanupHandle = none := (cleanupMediaC_same s).2.2.2.1
  rw [cleanupMediaC_res_none _ h2]
  show (cleanupMediaC s).res = runCleanupFns m s.res
  exact cleanupMediaC_res_some s m hch

lemma costep_no_init (s : CoordState) (e : CEvent)
    (he : isClickStart e = false) (hph : s.phase ≠ .acquiring) :
    (costep s e).phase ≠ .acquiring
    ∧ initCount (costep s e).hook.out = initCount s.hook.out := by
  cases e with
  | clickStart => simp [isClickStart] at he
  | clickPause => exact ⟨hph, initCount_hookStep _ _⟩
  | clickResume => exact ⟨hph, initCount_hookStep _ _⟩
  | clickStop => exact ⟨hph, initCount_hookStep _ _⟩
  | acqTabDenied =>
      simp only [costep]
      rw [if_neg hph]
      exact ⟨hph, rfl⟩
  | acqMicDenied =>
      simp only [costep]
      rw [if_neg hph]
      exact ⟨hph, rfl⟩
  | acqGranted n =>
      simp only [costep]
      rw [if_neg hph]
      exact ⟨hph, rfl⟩
  | hsCreated sid =>
      simp only [costep]
      split
      · refine ⟨fun hq => Phase.noConfusion hq, ?_⟩
        exact initCount_hookStep s.hook (.bind sid)
      · exact ⟨hph, rfl⟩
  | hsError reason =>
      simp only [costep]
      split
      · obtain ⟨_, _, hp, ho, _⟩ := startFailurePath_fields s reason
        refine ⟨?_, by rw [ho]⟩
        rw [hp]
        decide
      · exact ⟨hph, rfl⟩
  | hsTimeout =>
      simp only [costep]
      split
      · obtain ⟨_, _, hp, ho, _⟩ :=
          startFailurePath_fields s "Timed out creating session"
        refine ⟨?_, by rw [ho]⟩
        rw [hp]
        decide
      · exact ⟨hph, rfl⟩
  | media e' =>
      simp only [costep]
      split
      · exact ⟨hph, initCount_hookStep _ _⟩
      · exact ⟨hph, rfl⟩
  | sourceTerminated => exact ⟨hph, rfl⟩

lemma corun_no_init (s : CoordState) (evs : List CEvent)
    (he : hasClickStart evs = false) (hph : s.phase ≠ .acquiring) :
    initCount (corun s evs).hook.out = initCount s.hook.out := by
  induction evs generalizing s with
  | nil => rfl
  | cons e rest ih =>
      simp only [hasClickStart, List.any_cons, Bool.or_eq_false_iff] at he
      have hstep := costep_no_init s e he.1 hph
      have hrec := ih (costep s e) he.2 hstep.1
      calc initCount (corun (costep s e) rest).hook.out
          = initCount (costep s e).hook.out := hrec
        _ = initCount s.hook.out := hstep.2

lemma emitTo_nosid_fields (t : HookState) (f : String → OutMsg)
    (hs : t.activeSessionId = none) :
    (emitTo t f).activeSessionId = none ∧ (emitTo t f).out = t.out := by
  rw [emitTo_nosid t f hs]
  exact ⟨hs, rfl⟩

lemma emitChunk_nosid_fields (t : HookState) (n : Nat)
    (hs : t.activeSessionId = none) :
    (emitChunk t n).activeSessionId = none ∧ (emitChunk t n).out = t.out := by
  rw [emitChunk_nosid t n hs]
  exact ⟨hs, rfl⟩

lemma hookStep_nosid (h : HookState) (e : HEvent)
    (hs : h.activeSessionId = none) (hb : ∀ t, e ≠ HEvent.bind t) :
    (hookStep h e).activeSessionId = none
    ∧ chunkCount (hookStep h e).out = chunkCount h.out := by
  cases e with
  | capture n =>
      simp only [hookStep]
      split
      · exact ⟨hs, rfl⟩
      · exact ⟨hs, rfl⟩
  | timerFire =>
      simp only [hookStep]
      split
      · split
        · exact ⟨hs, rfl⟩
        · exact ⟨hs, rfl⟩
      · exact ⟨hs, rfl⟩
  | recorderEvent =>
      simp only [hookStep]
      split
      · exact ⟨hs, rfl⟩
      · rename_i n rest heq
        have hfld := emitChunk_nosid_fields { h with recQueue := rest } n hs
        exact ⟨hfld.1, by rw [hfld.2]⟩
      · split
        · exact ⟨hs, rfl⟩
        · exact ⟨hs, rfl⟩
  | restartFire =>
      simp only [hookStep]
      split
      · split
        · exact ⟨hs, rfl⟩
        · exact ⟨hs, rfl⟩
      · exact ⟨hs, rfl⟩
  | userStop =>
      simp only [hookStep]
      split
      · have hfld := emitTo_nosid_fields
          (recorderStopNow { h with loopTimeout := false, shouldRecord := false })
          OutMsg.sessionStop hs
        exact ⟨hfld.1, by rw [hfld.2]; rfl⟩
      · have hfld := emitTo_nosid_fields
          { h with loopTimeout := false, shouldRecord := false }
          OutMsg.sessionStop hs
        exact ⟨hfld.1, by rw [hfld.2]⟩
  | userPause =>
      simp only [hookStep]
      split
      · have hfld := emitTo_nosid_fields
          (recorderStopNow { h with shouldRecord := false, loopTimeout := false })
          OutMsg.sessionPause hs
        exact ⟨hfld.1, by rw [hfld.2]; rfl⟩
      · have hfld := emitTo_nosid_fields
          { h with shouldRecord := false, loopTimeout := false }
          OutMsg.sessionPause hs
        exact ⟨hfld.1, by rw [hfld.2]⟩
  | userResume =>
      simp only [hookStep]
      split
      · rename_i hcond
        rw [hs] at hcond
        simp at hcond
      · exact ⟨hs, rfl⟩
  | bind t => exact absurd rfl (hb t)

/-- A coordinator state with no active session and no emitted chunks:
after a failed start (and before any new Start click) this persists. -/
def NoSession (s : CoordState) : Prop :=
  s.phase = .idlePhase ∧ s.hook.activeSessionId = none
    ∧ chunkCount s.hook.out = 0

instance (s : CoordState) : Decidable (NoSession s) := by
  unfold NoSession
  infer_instance

lemma costep_noSession (s : CoordState) (e : CEvent)
    (he : isClickStart e = false) (h : NoSession s) :
    NoSession (costep s e) := by
  obtain ⟨hp, hsid, hc⟩ := h
  have hnb : ∀ (ev : HEvent), (∀ t, ev ≠ HEvent.bind t) →
      NoSession { s with hook := hookStep s.hook ev } := by
    intro ev hb
    have hh := hookStep_nosid s.hook ev hsid hb
    refine ⟨hp, hh.1, ?_⟩
    show chunkCount (hookStep s.hook ev).out = 0
    rw [hh.2]
    exact hc
  cases e with
  | clickStart => simp [isClickStart] at he
  | clickPause =>
      have := hnb .userPause (fun t ht => by cases ht)
      exact ⟨this.1, this.2.1, this.2.2⟩
  | clickResume =>
      have := hnb .userResume (fun t ht => by cases ht)
      exact ⟨this.1, this.2.1, this.2.2⟩
  | clickStop =>
      have := hnb .userStop (fun t ht => by cases ht)
      exact ⟨this.1, this.2.1, this.2.2⟩
  | acqTabDenied =>
      simp only [costep]
      rw [if_neg (by rw [hp]; decide)]
      exact ⟨hp, hsid, hc⟩
  | acqMicDenied =>
      simp only [costep]
      rw [if_neg (by rw [hp]; decide)]
      exact ⟨hp, hsid, hc⟩
  | acqGranted n =>
      simp only [costep]
      rw [if_neg (by rw [hp]; decide)]
      exact ⟨hp, hsid, hc⟩
  | hsCreated sid =>
      simp only [costep]
      rw [if_neg (by rw [hp]; decide)]
      exact ⟨hp, hsid, hc⟩
  | hsError reason =>
      simp only [costep]
      rw [if_neg (by rw [hp]; decide)]
      exact ⟨hp, hsid, hc⟩
  | hsTimeout =>
      simp only [costep]
      rw [if_neg (by rw [hp]; decide)]
      exact ⟨hp, hsid, hc⟩
  | media e' =>
      simp only [costep]
      split
      · rename_i henv
        refine hnb e' ?_
        intro t ht
        subst ht
        simp [isEnvEvent] at henv
      · exact ⟨hp, hsid, hc⟩
  | sourceTerminated => exact ⟨hp, hsid, hc⟩

lemma corun_noSession (s : CoordState) (evs : List CEvent)
    (he : hasClickStart evs = false) (h : NoSession s) :
    NoSession (corun s evs) := by
  induction evs generalizing s with
  | nil => exact h
  | cons e rest ih =>
      simp only [hasClickStart, List.any_cons, Bool.or_eq_false_iff] at he
      exact ih (costep s e) he.2 (costep_noSession s e he.1 h)

/-! ## Claim theorems over the coordinator model -/

theorem state_machine_implements_table_witness :
    specTable RState.idle REvent.PAUSE = none
    ∧ machineTransition RState.idle REvent.PAUSE = RState.idle :=
  ⟨rfl, state_machine_implements_table.2.2.1 RState.idle REvent.PAUSE rfl⟩

/-- C4: no auto-stop ever happens.  requestAudioStream in audio.ts
declares no termination-callback parameter and registers no track-ended
handler (useMediaRecorder passes one at the call site, but the callee
ignores it), so an unsolicited source termination is observed by nothing:
the coordinator state is untouched, the machine stays in Recording
(instead of moving to Processing as a stop() would) and no capture
resource is released. -/
theorem source_termination_unobserved :
    (∀ s : CoordState, costep s .sourceTerminated = s)
    ∧ (corun coordInit0 [.clickStart, .acqGranted 1, .hsCreated "s"]).machine
        = .recording
    ∧ (costep (corun coordInit0 [.clickStart, .acqGranted 1, .hsCreated "s"])
        .sourceTerminated).machine = .recording
    ∧ (costep (corun coordInit0 [.clickStart, .acqGranted 1, .hsCreated "s"])
        .sourceTerminated).res.tabLive = true := by
  refine ⟨fun s => rfl, ?_, ?_, ?_⟩ <;> decide

/-- C5: the stop command races past an unresolved start.  page.tsx sends
START before awaiting acquisition, so during the pending start the
machine is already in Recording (not still outside it as the claim
states); a stop() issued during pendency therefore passes the guard,
drives the machine to Processing, and the later resolution of the start
still binds the session and begins emitting chunks while the machine is
in Processing. -/
theorem stop_races_pending_start :
    (corun coordInit0 [.clickStart]).machine = .recording
    ∧ (corun coordInit0 [.clickStart]).phase = .acquiring
    ∧ (corun coordInit0 [.clickStart, .clickStop]).machine = .processing
    ∧ (corun coordInit0 [.clickStart, .clickStop, .acqGranted 1,
        .hsCreated "s", .media (.capture 5), .media .timerFire,
        .media .recorderEvent]).machine = .processing
    ∧ chunkCount (corun coordInit0 [.clickStart, .clickStop, .acqGranted 1,
        .hsCreated "s", .media (.capture 5), .media .timerFire,
        .media .recorderEvent]).hook.out = 1 := by
  refine ⟨?_, ?_, ?_, ?_, ?_⟩ <;> decide

/-- The acquisition-failure run of C6: Start clicked from Idle, the tab
share granted, then the second permission (microphone) denied. -/
def micDeniedRun : CoordState := corun coordInit0 [.clickStart, .acqMicDenied]

/-- C6 counterexample: when the second permission request is denied, the
already-acquired display source is NOT released — its tracks (audio and
video) are still live after the error path has run, refuting "every
already-acquired source is released before the error is raised". -/
theorem mic_denied_no_release_cex : ¬ allSourcesReleased micDeniedRun.res := by
  decide

/-- C6 amended: when the second permission request is denied, acquisition
aborts and the error propagates, but the already-acquired display source
is not released (no cleanup handle was registered yet, so the callers'
cleanup calls are no-ops on the sources); the state still becomes Error,
zero chunks are emitted and zero session-init messages are sent — then
and ever after, until a new Start click. -/
theorem mic_denied_aborts_without_release :
    micDeniedRun.machine = .error
    ∧ micDeniedRun.res.tabLive = true
    ∧ micDeniedRun.res.tabVideoLive = true
    ∧ micDeniedRun.cleanupHandle = none
    ∧ chunkCount micDeniedRun.hook.out = 0
    ∧ initCount micDeniedRun.hook.out = 0
    ∧ ∀ evs, hasClickStart evs = false →
        chunkCount (corun micDeniedRun evs).hook.out = 0 := by
  refine ⟨by decide, by decide, by decide, by decide, by decide, by decide, ?_⟩
  intro evs he
  exact (corun_noSession micDeniedRun evs he (by decide)).2.2

theorem mic_denied_aborts_witness :
    hasClickStart [CEvent.clickStop, CEvent.media HEvent.recorderEvent] = false
    ∧ chunkCount (corun micDeniedRun
        [CEvent.clickStop, CEvent.media HEvent.recorderEvent]).hook.out = 0 :=
  ⟨by decide, mic_denied_aborts_without_release.2.2.2.2.2.2
    [CEvent.clickStop, CEvent.media HEvent.recorderEvent] (by decide)⟩

/-- C7: the session-creation handshake uses a 6000 ms timeout; on timeout
the request is abandoned and the failure path runs: the machine is driven
to Error, the timeout message is surfaced, all capture resources are
released, and no session-init is ever re-sent (no automatic retry) until
a new Start click. -/
theorem handshake_timeout_behaviour (s : CoordState)
    (hph : s.phase = .handshaking) (hm : s.machine = .recording)
    (hch : s.cleanupHandle = some s.res.ctxOpen)
    (hv : s.res.tabVideoLive = false) :
    HANDSHAKE_TIMEOUT_MS = 6000
    ∧ (costep s .hsTimeout).machine = .error
    ∧ (costep s .hsTimeout).banner = some "Timed out creating session"
    ∧ allSourcesReleased (costep s .hsTimeout).res
    ∧ (costep s .hsTimeout).phase = .idlePhase
    ∧ ∀ evs, hasClickStart evs = false →
        initCount (corun (costep s .hsTimeout) evs).hook.out
          = initCount s.hook.out := by
  have hred : costep s .hsTimeout
      = startFailurePath s "Timed out creating session" := by
    simp only [costep]
    rw [if_pos hph]
  obtain ⟨hma, hba, hpa, hoa, _⟩ :=
    startFailurePath_fields s "Timed out creating session"
  have hres := startFailurePath_res s "Timed out creating session"
    s.res.ctxOpen hch
  refine ⟨rfl, ?_, ?_, ?_, ?_, ?_⟩
  · rw [hred, hma, hm]
    decide
  · rw [hred, hba]
  · rw [hred, hres]
    refine ⟨rfl, rfl, hv, ?_⟩
    show (if s.res.ctxOpen then false else s.res.ctxOpen) = false
    cases hco : s.res.ctxOpen <;> decide
  · rw [hred, hpa]
  · intro evs he
    rw [hred]
    have hnp : (startFailurePath s "Timed out creating session").phase
        ≠ .acquiring := by
      rw [hpa]
      decide
    rw [corun_no_init _ evs he hnp, hoa]

theorem handshake_timeout_witness :
    ((corun coordInit0 [.clickStart, .acqGranted 1]).phase = .handshaking
      ∧ (corun coordInit0 [.clickStart, .acqGranted 1]).machine = .recording)
    ∧ (costep (corun coordInit0 [.clickStart, .acqGranted 1]) .hsTimeout).machine
        = .error
    ∧ allSourcesReleased
        (costep (corun coordInit0 [.clickStart, .acqGranted 1]) .hsTimeout).res :=
  ⟨⟨by decide, by decide⟩,
   (handshake_timeout_behaviour (corun coordInit0 [.clickStart, .acqGranted 1])
      (by decide) (by decide) (by decide) (by decide)).2.1,
   (handshake_timeout_behaviour (corun coordInit0 [.clickStart, .acqGranted 1])
      (by decide) (by decide) (by decide) (by decide)).2.2.2.1⟩

/-- C8: start() is guarded — a no-op when the machine is in Recording or
Paused; from Error or Completed it first implicitly resets (machine to
Idle, transcript, summary and correlation id cleared) and only then
drives the machine to Recording. -/
theorem start_guard_and_implicit_reset (s : CoordState) :
    ((s.machine = .recording ∨ s.machine = .paused) →
      costep s .clickStart = s)
    ∧ (s.socketOk = true → (s.machine = .error ∨ s.machine = .completed) →
        (costep s .clickStart).machine = .recording
        ∧ (costep s .clickStart).transcript = []
        ∧ (costep s .clickStart).summary = none
        ∧ (costep s .clickStart).pageSessionId = none
        ∧ (costep s .clickStart).banner = none
        ∧ (costep s .clickStart).phase = .acquiring) := by
  constructor
  · intro hg
    simp only [costep]
    rw [if_pos hg]
  · intro hsok hmach
    simp only [costep]
    rw [if_neg (by rcases hmach with hm | hm <;> simp [hm])]
    rw [if_neg (by rw [hsok]; decide)]
    rw [if_pos hmach]
    refine ⟨?_, rfl, rfl, rfl, rfl, rfl⟩
    show machineTransition (machineTransition s.machine .RESET) .START
      = .recording
    rcases hmach with hm | hm <;> rw [hm] <;> decide

theorem start_guard_witness :
    (costep ({ machine := .recording } : CoordState) .clickStart
      = ({ machine := .recording } : CoordState))
    ∧ (costep ({ machine := .error } : CoordState) .clickStart).machine
        = .recording :=
  ⟨(start_guard_and_implicit_reset { machine := .recording }).1 (Or.inl rfl),
   ((start_guard_and_implicit_reset { machine := .error }).2 rfl (Or.inl rfl)).1⟩

/-- C9: the release handle stops every acquired source and tears down the
mixing graph, and releasing is idempotent — both the stream cleanup
closure of requestAudioStream and the hook's cleanupMedia have the same
effect when run twice as when run once, in any state (including after
partial failure, where no cleanup handle exists). -/
theorem release_idempotent_and_complete :
    (∀ m r, runCleanupFns m (runCleanupFns m r) = runCleanupFns m r)
    ∧ (∀ n, allSourcesReleased (runCleanupFns (decide (0 < n)) (acquiredRes n)))
    ∧ (∀ s, cleanupMediaC (cleanupMediaC s) = cleanupMediaC s) := by
  refine ⟨?_, ?_, ?_⟩
  · intro m r
    cases m <;> rfl
  · intro n
    cases hd : decide (0 < n) <;>
      simp [runCleanupFns, acquiredRes, allSourcesReleased, hd]
  · intro s
    rcases s with ⟨mach, tr, su, psid, ban, st, sok, ttl, ph, hk, rs, ch⟩
    rcases hk with ⟨hrec, rst, buf, q, pr, sid, ci, lt, sr, out⟩
    cases ch <;> cases hrec <;> cases rst <;> rfl

end Scribe
